import Mathlib

/-!
Verification development for the EcoChain marketplace core
(client/src/pages/Marketplace.tsx): normalizer, catalog query engine,
cart engine and pricing resolver, shallowly embedded in Lean.
-/

namespace EcoChain

open List (Sublist Perm)

open scoped List

/-- JavaScript `x || d` on an optional numeric value: `undefined` and the
falsy number `0` both fall back to the default. -/
def jsOrNum (x : Option Int) (d : Int) : Int :=
  match x with
  | none => d
  | some v => if v = 0 then d else v

/-- JavaScript `x || d` on an optional string value: `undefined` and the
falsy empty string both fall back to the default. -/
def jsOrStr (x : Option String) (d : String) : String :=
  match x with
  | none => d
  | some s => if s = "" then d else s

/-- The normalized product status enum. -/
inductive ProductStatus where
  | available
  | sold_out
deriving DecidableEq

/-- Nested pricing record of a raw API product (`MarketplaceItem.price`). -/
structure RawPrice where
  fiatAmount : Option Int
  tokenAmount : Option Int
deriving DecidableEq

/-- A raw API product record (`MarketplaceItem`), with optional fields. -/
structure RawProduct where
  mongoId : String
  name : String
  description : Option String
  price : RawPrice
  category : Option String
  images : Option (List String)
  sustainabilityScore : Option Int
  status : Option String
deriving DecidableEq

/-- The normalized `Product` shape used by the marketplace page. The
`category` field stays optional: the normalizer passes it through. -/
structure Product where
  id : String
  name : String
  description : Option String
  price : Int
  tokenPrice : Int
  category : Option String
  imageUrl : String
  sustainabilityScore : Int
  status : ProductStatus
deriving DecidableEq

/-- The placeholder image URL used when no image is present. -/
def placeholderImage : String := "https://via.placeholder.com/150"

/-- Embedding of `mapApiProductToProduct` (Marketplace.tsx lines 22 to 32):
prices via `|| 0`, first image via `images?.[0] || placeholder`,
sustainability score via `|| 85`, status recognizing only `sold_out`. -/
def mapApiProductToProduct (apiProduct : RawProduct) : Product :=
  { id := apiProduct.mongoId
    name := apiProduct.name
    description := apiProduct.description
    price := jsOrNum apiProduct.price.fiatAmount 0
    tokenPrice := jsOrNum apiProduct.price.tokenAmount 0
    category := apiProduct.category
    imageUrl := jsOrStr (apiProduct.images.bind List.head?) placeholderImage
    sustainabilityScore := jsOrNum apiProduct.sustainabilityScore 85
    status := if apiProduct.status = some "sold_out" then .sold_out else .available }

/-- Sort policy of the marketplace sort control. -/
inductive SortBy where
  | popular
  | price_low
  | price_high
deriving DecidableEq

/-- The ephemeral catalog query: active category, search term, sort policy
and page number (the page size is the constant 12 in the code). -/
structure CatalogQuery where
  activeCategory : String
  searchTerm : String
  sortBy : SortBy
  page : Nat
deriving DecidableEq

/-- `pageSize = 12` from Marketplace.tsx line 48. -/
def pageSize : Nat := 12

/-- Step 1 of `computed`: the category filter (lines 73 to 75). Keeps
products whose `category` equals the active category, unless it is "all". -/
def categoryStep (activeCategory : String) (result : List Product) : List Product :=
  if activeCategory ≠ "all" then
    result.filter (fun p => p.category == some activeCategory)
  else result

/-- Character-wise lower-casing of a string, as JavaScript `toLowerCase`
maps each character; represented as the list of lowered characters. -/
def lowerChars (s : String) : List Char := s.data.map Char.toLower

/-- Step 2 of `computed`: the search filter (lines 76 to 82). When the term
is non-empty, keeps products whose lower-cased name or description contains
the lower-cased term as a substring. -/
def searchStep (searchTerm : String) (result : List Product) : List Product :=
  if searchTerm ≠ "" then
    let t := lowerChars searchTerm
    result.filter (fun p =>
      decide (t <:+: lowerChars p.name) ||
      decide (t <:+: lowerChars (p.description.getD "")))
  else result

/-- Step 3 of `computed`: the sort step (lines 83 to 85). JavaScript
`Array.prototype.sort` is a stable sort, embedded as `mergeSort`; the
comparators order by `price` ascending or descending; `popular` keeps the
pipeline order. -/
def sortStep (sortBy : SortBy) (result : List Product) : List Product :=
  match sortBy with
  | .price_low => result.mergeSort (fun a b => decide (a.price ≤ b.price))
  | .price_high => result.mergeSort (fun a b => decide (b.price ≤ a.price))
  | .popular => result

/-- The list of products surviving both filters, before sorting/paging. -/
def matchingProducts (products : List Product) (q : CatalogQuery) : List Product :=
  searchStep q.searchTerm (categoryStep q.activeCategory products)

/-- The derived catalog view `{ total, items }`. -/
structure QueryView where
  total : Nat
  items : List Product
deriving DecidableEq

/-- Embedding of the `computed` memo (lines 71 to 90): filter by category,
filter by search, sort, then `total = result.length` and
`items = result.slice((page-1)*pageSize, page*pageSize)`. -/
def computed (products : List Product) (q : CatalogQuery) : QueryView :=
  let result := sortStep q.sortBy (matchingProducts products q)
  { total := result.length
    items := (result.drop ((q.page - 1) * pageSize)).take pageSize }

/-- One step of JavaScript `Set` insertion: append unless already present. -/
def setInsert (acc : List String) (a : String) : List String :=
  if a ∈ acc then acc else acc ++ [a]

/-- Embedding of `[...new Set(l)]`: iteration order of a JavaScript `Set`
is insertion order of first occurrences. -/
def jsSetToList (l : List String) : List String := l.foldl setInsert []

/-- Embedding of the category vocabulary (line 100):
`['all', ...new Set(products.map(product => product.category || 'uncategorized'))]`. -/
def categories (products : List Product) : List String :=
  "all" :: jsSetToList (products.map (fun p => jsOrStr p.category "uncategorized"))

/-- The checkout view derived in the cart sidebar. -/
structure PricingView where
  tokensApplied : Int
  finalTotal : Int
deriving DecidableEq

/-- Embedding of the pricing resolution: `maxTokensUsable =
Math.min(tokenTotal, totalEcoTokens)` (line 97) and the displayed total
`cartTotal - (maxTokensUsable * 5)` (line 249), with the fixed rate 5. -/
def resolvePricing (cartTotal tokenTotal totalEcoTokens : Int) : PricingView :=
  let maxTokensUsable := min tokenTotal totalEcoTokens
  { tokensApplied := maxTokensUsable
    finalTotal := cartTotal - maxTokensUsable * 5 }

/-- A cart line: a product with an integer quantity. -/
structure CartLine where
  product : Product
  quantity : Int
deriving DecidableEq

/-- Modelled from the spec: the Cart Engine (`CartContext`) is consumed by
Marketplace.tsx but its source file is not in the repository snapshot.
Spec 4.3: if a line for `product.id` exists, increment its quantity by 1;
else append a new line with quantity 1. -/
def addToCart (cart : List CartLine) (p : Product) : List CartLine :=
  if cart.any (fun line => line.product.id == p.id) then
    cart.map (fun line =>
      if line.product.id == p.id then { line with quantity := line.quantity + 1 }
      else line)
  else
    cart ++ [{ product := p, quantity := 1 }]

/-- Modelled from the spec: the Cart Engine (`CartContext`) is consumed by
Marketplace.tsx but its source file is not in the repository snapshot.
Spec 4.3: deletes the matching line if present; no-op if absent. -/
def removeFromCart (cart : List CartLine) (productId : String) : List CartLine :=
  cart.filter (fun line => line.product.id != productId)

/-- Modelled from the spec: the Cart Engine (`CartContext`) is consumed by
Marketplace.tsx but its source file is not in the repository snapshot.
Spec 4.3: if `newQuantity <= 0`, equivalent to `removeFromCart`; otherwise
sets the quantity of the matching line to `newQuantity` exactly. -/
def updateQuantity (cart : List CartLine) (productId : String) (newQuantity : Int) :
    List CartLine :=
  if newQuantity ≤ 0 then
    removeFromCart cart productId
  else
    cart.map (fun line =>
      if line.product.id == productId then { line with quantity := newQuantity }
      else line)

/-- Cart well-formedness: every line has quantity at least 1 and there is
at most one line per distinct product id. -/
def cartWF (cart : List CartLine) : Prop :=
  (∀ line ∈ cart, 1 ≤ line.quantity) ∧
  (cart.map (fun line => line.product.id)).Nodup

/-- A concrete raw record with every optional field absent. -/
def bareRaw : RawProduct :=
  { mongoId := "r1"
    name := "Bare"
    description := none
    price := { fiatAmount := none, tokenAmount := none }
    category := none
    images := none
    sustainabilityScore := none
    status := none }

/-- A concrete raw record whose present falsy fields exercise the `||`
defaults: score 0 and an empty-string first image. -/
def zeroScoreRaw : RawProduct :=
  { mongoId := "r2"
    name := "Zero"
    description := none
    price := { fiatAmount := some 3, tokenAmount := some 1 }
    category := some "decor"
    images := some [""]
    sustainabilityScore := some 0
    status := some "weird" }

/-- A concrete product named "Bamboo Wall Clock". -/
def bambooProduct : Product :=
  { id := "p1"
    name := "Bamboo Wall Clock"
    description := none
    price := 300
    tokenPrice := 100
    category := some "decor"
    imageUrl := placeholderImage
    sustainabilityScore := 85
    status := .available }

/-- A concrete product in category "decor". -/
def demoProductA : Product :=
  { id := "p2"
    name := "Recycled Vase"
    description := some "A vase"
    price := 120
    tokenPrice := 40
    category := some "decor"
    imageUrl := placeholderImage
    sustainabilityScore := 90
    status := .available }

/-- A concrete product in category "kitchen". -/
def demoProductB : Product :=
  { id := "p3"
    name := "Cork Trivet"
    description := none
    price := 50
    tokenPrice := 10
    category := some "kitchen"
    imageUrl := placeholderImage
    sustainabilityScore := 70
    status := .available }

/-- A concrete product whose category is the literal string "all". -/
def allCatProduct : Product :=
  { id := "p4"
    name := "Weird"
    description := none
    price := 10
    tokenPrice := 0
    category := some "all"
    imageUrl := placeholderImage
    sustainabilityScore := 85
    status := .available }

/-- A small concrete catalog. -/
def demoProducts : List Product := [bambooProduct, demoProductA, demoProductB]

/-- A concrete query with category "decor". -/
def demoQuery : CatalogQuery :=
  { activeCategory := "decor", searchTerm := "", sortBy := .popular, page := 1 }

/-- A concrete query on a page far beyond the last valid page. -/
def farPageQuery : CatalogQuery :=
  { activeCategory := "all", searchTerm := "", sortBy := .popular, page := 99 }

/-- A concrete query with category "uncategorized". -/
def uncategorizedQuery : CatalogQuery :=
  { activeCategory := "uncategorized", searchTerm := "", sortBy := .popular, page := 1 }

/-- A concrete one-line cart holding two units of `demoProductA`. -/
def demoCart : List CartLine := [{ product := demoProductA, quantity := 2 }]

/-! Helper lemmas about the catalog pipeline. -/

theorem categoryStep_sublist (c : String) (l : List Product) : categoryStep c l <+ l := by
  unfold categoryStep
  split
  · exact List.filter_sublist l
  · exact List.Sublist.refl l

theorem searchStep_sublist (t : String) (l : List Product) : searchStep t l <+ l := by
  unfold searchStep
  split
  · exact List.filter_sublist l
  · exact List.Sublist.refl l

theorem matchingProducts_sublist (products : List Product) (q : CatalogQuery) :
    matchingProducts products q <+ products :=
  (searchStep_sublist _ _).trans (categoryStep_sublist _ _)

theorem sortStep_perm (s : SortBy) (l : List Product) : sortStep s l ~ l := by
  cases s with
  | popular => exact List.Perm.refl l
  | price_low => exact List.mergeSort_perm l _
  | price_high => exact List.mergeSort_perm l _

theorem category_of_mem_categoryStep {p : Product} {c : String} {l : List Product}
    (hc : c ≠ "all") (h : p ∈ categoryStep c l) : p.category = some c := by
  unfold categoryStep at h
  rw [if_pos hc] at h
  simpa using List.of_mem_filter h

theorem mem_categoryStep_of_mem_matching {p : Product} {products : List Product}
    {q : CatalogQuery} (h : p ∈ matchingProducts products q) :
    p ∈ categoryStep q.activeCategory products :=
  (searchStep_sublist _ _).subset h

theorem mem_matching_of_mem_items {p : Product} {products : List Product} {q : CatalogQuery}
    (h : p ∈ (computed products q).items) : p ∈ matchingProducts products q := by
  have h1 : p ∈ sortStep q.sortBy (matchingProducts products q) :=
    (List.drop_sublist _ _).subset ((List.take_sublist _ _).subset h)
  exact (sortStep_perm q.sortBy (matchingProducts products q)).mem_iff.mp h1

/-! Claim theorems. -/

/-- C1: the pricing resolution caps the applied tokens at both the cart
token subtotal and the user balance (it equals the minimum of the two), the
final total is the cart subtotal minus the applied tokens at the fixed rate
5, and the final total is not floored at zero: it goes negative when the
token discount exceeds the subtotal. -/
theorem C1_pricing_resolution (cartTotal tokenTotal balance : Int) :
    (resolvePricing cartTotal tokenTotal balance).tokensApplied = min tokenTotal balance ∧
    (resolvePricing cartTotal tokenTotal balance).tokensApplied ≤ tokenTotal ∧
    (resolvePricing cartTotal tokenTotal balance).tokensApplied ≤ balance ∧
    (tokenTotal ≤ balance →
      (resolvePricing cartTotal tokenTotal balance).tokensApplied = tokenTotal) ∧
    (balance ≤ tokenTotal →
      (resolvePricing cartTotal tokenTotal balance).tokensApplied = balance) ∧
    (resolvePricing cartTotal tokenTotal balance).finalTotal =
      cartTotal - (resolvePricing cartTotal tokenTotal balance).tokensApplied * 5 ∧
    (resolvePricing 10 3 7).finalTotal = -5 :=
  ⟨rfl, min_le_left _ _, min_le_right _ _, fun h => min_eq_left h, fun h => min_eq_right h,
    rfl, by decide⟩

/-- C1 witness: with token subtotal 120 and balance 50 the applied tokens
are 50 (the spec test vector). -/
theorem C1_pricing_resolution_witness :
    (resolvePricing 1000 120 50).tokensApplied = 50 :=
  (C1_pricing_resolution 1000 120 50).2.2.2.2.1 (by decide)

/-- C2: totalMatching is the number of products surviving the filters
(pagination does not change it and the page number does not affect it),
pageItems is the slice [(page-1)*pageSize, page*pageSize) of the sorted
result, its length never exceeds pageSize, and a page beyond the last
valid page yields an empty pageItems without error. -/
theorem C2_pagination (products : List Product) (q : CatalogQuery) :
    (computed products q).total = (matchingProducts products q).length ∧
    (computed products q).items.length ≤ pageSize ∧
    ((computed products q).total ≤ (q.page - 1) * pageSize →
      (computed products q).items = []) ∧
    (∀ page2 : Nat,
      (computed products { q with page := page2 }).total = (computed products q).total) ∧
    (computed products q).items =
      ((sortStep q.sortBy (matchingProducts products q)).drop
        ((q.page - 1) * pageSize)).take pageSize := by
  refine ⟨(sortStep_perm q.sortBy (matchingProducts products q)).length_eq, ?_, ?_,
    fun page2 => rfl, rfl⟩
  · simp only [computed, List.length_take]
    exact Nat.min_le_left _ _
  · intro h
    simp only [computed] at h ⊢
    rw [List.drop_eq_nil_of_le h, List.take_nil]

/-- C2 witness: on the demo catalog, page 99 yields an empty page. -/
theorem C2_pagination_witness : (computed demoProducts farPageQuery).items = [] :=
  (C2_pagination demoProducts farPageQuery).2.2.1 (by decide)

/-- C3: with an active category other than "all", every product in the
page items and in the pre-pagination matching set has exactly that
category, and totalMatching counts exactly those matches; with category
"all" the category filter passes every product through. -/
theorem C3_category_filter (products : List Product) (q : CatalogQuery) :
    (q.activeCategory ≠ "all" →
      (∀ p ∈ (computed products q).items, p.category = some q.activeCategory) ∧
      (∀ p ∈ matchingProducts products q, p.category = some q.activeCategory) ∧
      (computed products q).total = (matchingProducts products q).length) ∧
    (q.activeCategory = "all" → categoryStep q.activeCategory products = products) := by
  constructor
  · intro hc
    refine ⟨?_, ?_, (sortStep_perm _ _).length_eq⟩
    · intro p hp
      exact category_of_mem_categoryStep hc
        (mem_categoryStep_of_mem_matching (mem_matching_of_mem_items hp))
    · intro p hp
      exact category_of_mem_categoryStep hc (mem_categoryStep_of_mem_matching hp)
  · intro h
    simp [categoryStep, h]

/-- C3 witness: in the demo catalog queried with category "decor", a page
item has category "decor". -/
theorem C3_category_filter_witness : demoProductA.category = some "decor" :=
  ((C3_category_filter demoProducts demoQuery).1 (by decide)).1 demoProductA (by decide)

theorem priceAsc_trans (a b c : Product) :
    decide (a.price ≤ b.price) → decide (b.price ≤ c.price) → decide (a.price ≤ c.price) := by
  simp only [decide_eq_true_eq]
  omega

theorem priceAsc_total (a b : Product) :
    decide (a.price ≤ b.price) || decide (b.price ≤ a.price) := by
  simp only [Bool.or_eq_true, decide_eq_true_eq]
  omega

theorem priceDesc_trans (a b c : Product) :
    decide (b.price ≤ a.price) → decide (c.price ≤ b.price) → decide (c.price ≤ a.price) := by
  simp only [decide_eq_true_eq]
  omega

theorem priceDesc_total (a b : Product) :
    decide (b.price ≤ a.price) || decide (a.price ≤ b.price) := by
  simp only [Bool.or_eq_true, decide_eq_true_eq]
  omega

/-- Stability of the embedded sort, in filter form: the sublist of elements
satisfying a predicate on which the comparator never strictly discriminates
is unchanged by sorting. -/
theorem mergeSort_filter_stable (l : List Product) (le : Product → Product → Bool)
    (htrans : ∀ a b c, le a b → le b c → le a c)
    (htotal : ∀ a b, le a b || le b a)
    (pred : Product → Bool)
    (hpred : ∀ a b, pred a = true → pred b = true → le a b = true) :
    (l.mergeSort le).filter pred = l.filter pred := by
  have hpw : (l.filter pred).Pairwise (fun a b => le a b = true) :=
    List.pairwise_of_forall_mem_list fun a ha b hb =>
      hpred a b (List.of_mem_filter ha) (List.of_mem_filter hb)
  have hsub : l.filter pred <+ l.mergeSort le :=
    List.sublist_mergeSort htrans htotal hpw (List.filter_sublist l)
  have h1 : l.filter pred <+ (l.mergeSort le).filter pred := by
    have h2 := hsub.filter pred
    simpa [List.filter_filter] using h2
  have hperm : (l.mergeSort le).filter pred ~ l.filter pred :=
    (List.mergeSort_perm l le).filter pred
  exact (h1.eq_of_length hperm.length_eq.symm).symm

/-- C4: with price_low the result is ordered by price ascending, with
price_high descending, in both cases products of equal price keep their
relative pre-sort order (stability, stated as invariance of every
equal-price fiber); popular leaves the list unchanged, and the filtered
pipeline order is a subsequence of the original catalog order because both
filters are order-preserving. -/
theorem C4_sort_stable (l : List Product) (v : Int) (q : CatalogQuery) :
    (sortStep .price_low l).Pairwise (fun a b => a.price ≤ b.price) ∧
    (sortStep .price_low l).filter (fun p => p.price == v) =
      l.filter (fun p => p.price == v) ∧
    (sortStep .price_high l).Pairwise (fun a b => b.price ≤ a.price) ∧
    (sortStep .price_high l).filter (fun p => p.price == v) =
      l.filter (fun p => p.price == v) ∧
    sortStep .popular l = l ∧
    matchingProducts l q <+ l := by
  refine ⟨?_, ?_, ?_, ?_, rfl, matchingProducts_sublist l q⟩
  · exact (List.sorted_mergeSort priceAsc_trans priceAsc_total l).imp
      (fun h => by simpa using h)
  · exact mergeSort_filter_stable l _ priceAsc_trans priceAsc_total _
      (fun a b ha hb => by
        simp only [beq_iff_eq] at ha hb
        simp [ha, hb])
  · exact (List.sorted_mergeSort priceDesc_trans priceDesc_total l).imp
      (fun h => by simpa using h)
  · exact mergeSort_filter_stable l _ priceDesc_trans priceDesc_total _
      (fun a b ha hb => by
        simp only [beq_iff_eq] at ha hb
        simp [ha, hb])

/-- C5: a non-empty search term keeps exactly the products whose name or
description, case-folded, contains the case-folded term as a substring; an
empty term keeps all products; and searching "bamboo" keeps a product named
"Bamboo Wall Clock". -/
theorem C5_search_filter (l : List Product) (term : String) (p : Product) :
    searchStep "" l = l ∧
    (term ≠ "" →
      (p ∈ searchStep term l ↔ p ∈ l ∧
        (lowerChars term <:+: lowerChars p.name ∨
         lowerChars term <:+: lowerChars (p.description.getD "")))) ∧
    searchStep "bamboo" [bambooProduct] = [bambooProduct] := by
  refine ⟨by simp [searchStep], ?_, by decide⟩
  intro ht
  simp [searchStep, ht, List.mem_filter]

/-- C5 witness: the kept product indeed matches in the case-folded sense. -/
theorem C5_search_filter_witness :
    bambooProduct ∈ ([bambooProduct] : List Product) ∧
    (lowerChars "bamboo" <:+: lowerChars bambooProduct.name ∨
     lowerChars "bamboo" <:+: lowerChars (bambooProduct.description.getD "")) :=
  ((C5_search_filter [bambooProduct] "bamboo" bambooProduct).2.1 (by decide)).mp (by decide)

/-- C6: the normalizer is a total function on raw records; absent price
fields default to 0, absent images fall back to the placeholder, an absent
sustainability score defaults to 85, and any status other than the
recognized "sold_out" normalizes to available. -/
theorem C6_normalizer_defaults (raw : RawProduct) :
    (raw.price.fiatAmount = none → (mapApiProductToProduct raw).price = 0) ∧
    (raw.price.tokenAmount = none → (mapApiProductToProduct raw).tokenPrice = 0) ∧
    (raw.images = none → (mapApiProductToProduct raw).imageUrl = placeholderImage) ∧
    (raw.sustainabilityScore = none →
      (mapApiProductToProduct raw).sustainabilityScore = 85) ∧
    (raw.status ≠ some "sold_out" →
      (mapApiProductToProduct raw).status = ProductStatus.available) := by
  refine ⟨?_, ?_, ?_, ?_, ?_⟩
  · intro h; simp [mapApiProductToProduct, jsOrNum, h]
  · intro h; simp [mapApiProductToProduct, jsOrNum, h]
  · intro h; simp [mapApiProductToProduct, jsOrStr, h]
  · intro h; simp [mapApiProductToProduct, jsOrNum, h]
  · intro h; simp [mapApiProductToProduct, h]

/-- C6 witness: all defaults fire on a bare raw record with every optional
field absent, and no error is possible. -/
theorem C6_normalizer_defaults_witness :
    (mapApiProductToProduct bareRaw).price = 0 ∧
    (mapApiProductToProduct bareRaw).tokenPrice = 0 ∧
    (mapApiProductToProduct bareRaw).imageUrl = placeholderImage ∧
    (mapApiProductToProduct bareRaw).sustainabilityScore = 85 ∧
    (mapApiProductToProduct bareRaw).status = ProductStatus.available :=
  ⟨(C6_normalizer_defaults bareRaw).1 rfl,
   (C6_normalizer_defaults bareRaw).2.1 rfl,
   (C6_normalizer_defaults bareRaw).2.2.1 rfl,
   (C6_normalizer_defaults bareRaw).2.2.2.1 rfl,
   (C6_normalizer_defaults bareRaw).2.2.2.2 (by decide)⟩

/-- C7 counterexample: a raw record with an absent category normalizes to a
product whose category is still absent, not the sentinel "uncategorized";
and querying that normalized product with category "uncategorized" matches
nothing. -/
theorem C7_counterexample :
    (mapApiProductToProduct bareRaw).category ≠ some "uncategorized" ∧
    (computed [mapApiProductToProduct bareRaw] uncategorizedQuery).total = 0 :=
  ⟨by decide, by decide⟩

/-- C7 amended: the normalizer passes the category through unchanged, so an
absent category stays absent; the sentinel "uncategorized" arises only in
the derived category vocabulary; and querying with category "uncategorized"
matches exactly the products whose stored category is the literal string
"uncategorized" (hence none of the absent-category ones). -/
theorem C7_amended_category_passthrough (raw : RawProduct) (products : List Product)
    (q : CatalogQuery) (p : Product) :
    (mapApiProductToProduct raw).category = raw.category ∧
    (raw.category = none → (mapApiProductToProduct raw).category = none) ∧
    (q.activeCategory = "uncategorized" →
      ∀ x ∈ (computed products q).items, x.category = some "uncategorized") ∧
    (p ∈ categoryStep "uncategorized" products ↔
      p ∈ products ∧ p.category = some "uncategorized") ∧
    (raw.category = none →
      "uncategorized" ∈ categories [mapApiProductToProduct raw]) := by
  refine ⟨rfl, fun h => h, ?_, ?_, ?_⟩
  · intro hq x hx
    have : x.category = some q.activeCategory :=
      category_of_mem_categoryStep (by rw [hq]; decide)
        (mem_categoryStep_of_mem_matching (mem_matching_of_mem_items hx))
    rwa [hq] at this
  · simp [categoryStep, List.mem_filter]
  · intro h
    simp [categories, jsSetToList, setInsert, jsOrStr, mapApiProductToProduct, h]

/-- C7 amended witness: concrete checks on the bare raw record. -/
theorem C7_amended_category_passthrough_witness :
    (mapApiProductToProduct bareRaw).category = none ∧
    "uncategorized" ∈ categories [mapApiProductToProduct bareRaw] :=
  ⟨(C7_amended_category_passthrough bareRaw [] uncategorizedQuery bambooProduct).2.1 rfl,
   (C7_amended_category_passthrough bareRaw [] uncategorizedQuery bambooProduct).2.2.2.2 rfl⟩

/-- C10: the normalizer treats present falsy values like absent ones: a
present sustainability score of 0 becomes 85, and a present empty-string
first image becomes the placeholder. -/
theorem C10_falsy_defaults (raw : RawProduct) (rest : List String) :
    (raw.sustainabilityScore = some 0 →
      (mapApiProductToProduct raw).sustainabilityScore = 85) ∧
    (raw.images = some ("" :: rest) →
      (mapApiProductToProduct raw).imageUrl = placeholderImage) := by
  constructor
  · intro h; simp [mapApiProductToProduct, jsOrNum, h]
  · intro h; simp [mapApiProductToProduct, jsOrStr, h]

/-- C10 witness: both falsy fallbacks fire on a concrete raw record with a
present zero score and a present empty-string first image. -/
theorem C10_falsy_defaults_witness :
    (mapApiProductToProduct zeroScoreRaw).sustainabilityScore = 85 ∧
    (mapApiProductToProduct zeroScoreRaw).imageUrl = placeholderImage :=
  ⟨(C10_falsy_defaults zeroScoreRaw []).1 rfl,
   (C10_falsy_defaults zeroScoreRaw []).2 rfl⟩

/-- First-occurrence deduplication written by direct recursion: keep the
head, delete its later duplicates, recurse. This is the specification of
iteration order of a JavaScript `Set`. -/
def firstSeen : List String → List String
  | [] => []
  | a :: l => a :: firstSeen (l.filter (fun b => !(b == a)))
termination_by l => l.length
decreasing_by
  simp only [List.length_cons]
  exact Nat.lt_succ_of_le (List.length_filter_le _ _)

theorem foldl_setInsert_eq (l : List String) : ∀ acc : List String,
    l.foldl setInsert acc = acc ++ firstSeen (l.filter (fun b => !(decide (b ∈ acc)))) := by
  induction l with
  | nil => intro acc; simp [firstSeen]
  | cons a l ih =>
    intro acc
    by_cases h : a ∈ acc
    · rw [List.foldl_cons, setInsert, if_pos h, ih acc]
      simp [h]
    · rw [List.foldl_cons, setInsert, if_neg h, ih (acc ++ [a])]
      have hfil : (a :: l).filter (fun b => !(decide (b ∈ acc))) =
          a :: l.filter (fun b => !(decide (b ∈ acc))) := by
        simp [h]
      rw [hfil, firstSeen]
      have hcomm : (l.filter (fun b => !(decide (b ∈ acc)))).filter (fun b => !(b == a)) =
          l.filter (fun b => !(decide (b ∈ acc ++ [a]))) := by
        rw [List.filter_filter]
        apply List.filter_congr
        intro b _
        by_cases hb : b = a
        · simp [hb, h]
        · simp [hb, List.mem_append]
      rw [hcomm, List.append_assoc, List.singleton_append]

theorem jsSetToList_eq_firstSeen (l : List String) : jsSetToList l = firstSeen l := by
  have h := foldl_setInsert_eq l []
  simpa [jsSetToList] using h

theorem firstSeen_sublist (l : List String) : firstSeen l <+ l := by
  induction l using firstSeen.induct with
  | case1 => rw [firstSeen]
  | case2 a l ih =>
    rw [firstSeen]
    exact (ih.trans (List.filter_sublist l)).cons₂ a

theorem mem_firstSeen (l : List String) (x : String) : x ∈ firstSeen l ↔ x ∈ l := by
  induction l using firstSeen.induct with
  | case1 => rw [firstSeen]
  | case2 a l ih =>
    rw [firstSeen]
    by_cases hx : x = a
    · simp [hx]
    · simp [hx, ih, List.mem_filter]

theorem firstSeen_nodup (l : List String) : (firstSeen l).Nodup := by
  induction l using firstSeen.induct with
  | case1 => rw [firstSeen]; exact List.nodup_nil
  | case2 a l ih =>
    rw [firstSeen]
    refine List.Nodup.cons ?_ ih
    intro hmem
    have := (mem_firstSeen _ _).mp hmem
    simp [List.mem_filter] at this

/-- C8 counterexample: a product whose category is the literal string "all"
makes the derived vocabulary ["all", "all"], which has a duplicate entry,
refuting the no-duplicates part of the claim. -/
theorem C8_counterexample :
    categories [allCatProduct] = ["all", "all"] ∧
    ¬ (categories [allCatProduct]).Nodup :=
  ⟨by decide, by decide⟩

/-- C8 amended: the vocabulary is "all" followed by the distinct defaulted
category values in first-seen order with duplicates collapsed (the tail is
duplicate-free, order-preserving, and covers exactly the defaulted
categories); the whole list is duplicate-free provided no product has the
literal category "all", which can otherwise duplicate the prepended "all". -/
theorem C8_amended_categories (products : List Product) :
    categories products =
      "all" :: firstSeen (products.map (fun p => jsOrStr p.category "uncategorized")) ∧
    (categories products).head? = some "all" ∧
    (categories products).tail.Nodup ∧
    (∀ c, c ∈ (categories products).tail ↔
      c ∈ products.map (fun p => jsOrStr p.category "uncategorized")) ∧
    (categories products).tail <+
      products.map (fun p => jsOrStr p.category "uncategorized") ∧
    ("all" ∉ products.map (fun p => jsOrStr p.category "uncategorized") →
      (categories products).Nodup) := by
  refine ⟨?_, rfl, ?_, ?_, ?_, ?_⟩
  · simp only [categories, jsSetToList_eq_firstSeen]
  · simpa [categories, jsSetToList_eq_firstSeen] using firstSeen_nodup _
  · intro c
    have h := mem_firstSeen (products.map (fun p => jsOrStr p.category "uncategorized")) c
    simpa only [categories, jsSetToList_eq_firstSeen, List.tail_cons] using h
  · simpa [categories, jsSetToList_eq_firstSeen] using firstSeen_sublist _
  · intro h
    refine List.Nodup.cons ?_ ?_
    · simpa [categories, jsSetToList_eq_firstSeen, mem_firstSeen] using h
    · simpa [categories, jsSetToList_eq_firstSeen] using firstSeen_nodup _

/-- C8 amended witness: on the demo catalog no product has category "all",
so the vocabulary is duplicate-free. -/
theorem C8_amended_categories_witness : (categories demoProducts).Nodup :=
  (C8_amended_categories demoProducts).2.2.2.2.2 (by decide)

theorem cartWF_removeFromCart {cart : List CartLine} (pid : String) (h : cartWF cart) :
    cartWF (removeFromCart cart pid) := by
  obtain ⟨hq, hn⟩ := h
  constructor
  · intro line hline
    exact hq line (List.mem_filter.mp hline).1
  · exact List.Nodup.sublist
      (List.Sublist.map (fun line => line.product.id) (List.filter_sublist cart)) hn

theorem cartWF_addToCart {cart : List CartLine} (p : Product) (h : cartWF cart) :
    cartWF (addToCart cart p) := by
  obtain ⟨hq, hn⟩ := h
  unfold addToCart
  split
  case isTrue hany =>
    constructor
    · intro line hline
      rcases List.mem_map.mp hline with ⟨line0, hline0, rfl⟩
      have h0 := hq line0 hline0
      by_cases hb : (line0.product.id == p.id) = true
      · simp only [if_pos hb]
        omega
      · simp only [if_neg hb]
        exact h0
    · have hmap : (cart.map (fun line =>
          if line.product.id == p.id then { line with quantity := line.quantity + 1 }
          else line)).map (fun line => line.product.id) =
          cart.map (fun line => line.product.id) := by
        rw [List.map_map]
        apply List.map_congr_left
        intro line _
        simp only [Function.comp_apply]
        by_cases hb : (line.product.id == p.id) = true
        · rw [if_pos hb]
        · rw [if_neg hb]
      rw [hmap]
      exact hn
  case isFalse hany =>
    constructor
    · intro line hline
      rcases List.mem_append.mp hline with h1 | h1
      · exact hq line h1
      · rw [List.mem_singleton] at h1
        rw [h1]
    · have hid : p.id ∉ cart.map (fun line => line.product.id) := by
        intro hmem
        rcases List.mem_map.mp hmem with ⟨line0, hline0, hid0⟩
        exact hany (List.any_eq_true.mpr ⟨line0, hline0, by simp [hid0]⟩)
      rw [List.map_append]
      rw [List.nodup_append]
      refine ⟨hn, List.nodup_singleton _, ?_⟩
      intro x hx hx1
      simp only [List.map_cons, List.map_nil, List.mem_singleton] at hx1
      rw [hx1] at hx
      exact hid hx

theorem cartWF_updateQuantity {cart : List CartLine} (pid : String) (n : Int)
    (h : cartWF cart) : cartWF (updateQuantity cart pid n) := by
  obtain ⟨hq, hn⟩ := h
  unfold updateQuantity
  split
  case isTrue => exact cartWF_removeFromCart pid ⟨hq, hn⟩
  case isFalse hneg =>
    constructor
    · intro line hline
      rcases List.mem_map.mp hline with ⟨line0, hline0, rfl⟩
      have h0 := hq line0 hline0
      by_cases hb : (line0.product.id == pid) = true
      · simp only [if_pos hb]
        omega
      · simp only [if_neg hb]
        exact h0
    · have hmap : (cart.map (fun line =>
          if line.product.id == pid then { line with quantity := n }
          else line)).map (fun line => line.product.id) =
          cart.map (fun line => line.product.id) := by
        rw [List.map_map]
        apply List.map_congr_left
        intro line _
        simp only [Function.comp_apply]
        by_cases hb : (line.product.id == pid) = true
        · rw [if_pos hb]
        · rw [if_neg hb]
      rw [hmap]
      exact hn

/-- C9: all three cart operations preserve the cart invariant (every line
has quantity at least 1, at most one line per product id); updating to a
non-positive quantity is exactly removal, and updating to a positive
quantity sets the matching line to exactly that quantity. -/
theorem C9_cart_invariants (cart : List CartLine) (p : Product) (pid : String) (n : Int)
    (h : cartWF cart) :
    cartWF (addToCart cart p) ∧
    cartWF (removeFromCart cart pid) ∧
    cartWF (updateQuantity cart pid n) ∧
    (n ≤ 0 → updateQuantity cart pid n = removeFromCart cart pid) ∧
    (0 < n → ∀ line ∈ updateQuantity cart pid n,
      line.product.id = pid → line.quantity = n) := by
  refine ⟨cartWF_addToCart p h, cartWF_removeFromCart pid h,
    cartWF_updateQuantity pid n h, ?_, ?_⟩
  · intro hneg
    simp [updateQuantity, hneg]
  · intro hpos line hline hid
    rw [updateQuantity, if_neg (by omega)] at hline
    rcases List.mem_map.mp hline with ⟨line0, _, rfl⟩
    by_cases hb : (line0.product.id == pid) = true
    · simp only [if_pos hb]
    · rw [if_neg hb] at hid ⊢
      exact absurd hid (by simpa using hb)

/-- C9 witness: on a concrete one-line cart, updating to quantity 0 equals
removal of the line. -/
theorem C9_cart_invariants_witness :
    updateQuantity demoCart "p2" 0 = removeFromCart demoCart "p2" :=
  (C9_cart_invariants demoCart demoProductA "p2" 0 ⟨by decide, by decide⟩).2.2.2.1 (by decide)

end EcoChain
